import Mathlib

/-!
# Verification of the Fractal RPG bot's fact/XP/character logic

Shallow embedding of the repository's domain logic (`rpg_core.py`,
`main.py`, `bot.py`): the character record, the global fact index over the
three timeline buckets, the select-option builders, and the state updates
performed by the edit / rupture / new-fact / creation / XP workflows.
Python `list` indexing (including negative indices and `IndexError`) is
modelled explicitly; fallible paths return `Option`/`Except`.
-/

namespace Fractal

/-- Constant `XP_COST_NEW_FACT = 3` from `rpg_core.py` and `main.py`. -/
def XP_COST_NEW_FACT : Int := 3

/-- Constant `DEFAULT_DESTINY_MAX = 2` from `rpg_core.py`. -/
def DEFAULT_DESTINY_MAX : Int := 2

/-- Constant `DEFAULT_CONDITION_MAX = 3` from `main.py`. -/
def DEFAULT_CONDITION_MAX : Int := 3

/-- A `{current, max}` gauge (`reserves.pv` / `reserves.pm` /
`reserves.destiny` in `rpg_core.py`, `condition` in `main.py`). -/
structure Reserve where
  current : Int
  max : Int
  deriving DecidableEq, Repr

/-- The `damage_base` sub-record of the v2 schema. -/
structure DamageBase where
  physical : Int
  magic_bonus : Int
  deriving DecidableEq, Repr

/-- The `facts` sub-record: three ordered timeline buckets. -/
structure Facts where
  past : List String
  present : List String
  future : List String
  deriving DecidableEq, Repr

/-- Embeds `flatten_facts` (`main.py`): `past + present + future`, the canonical
global index space. -/
def flatten_facts (f : Facts) : List String :=
  f.past ++ f.present ++ f.future

/-- Character record of the v2 schema built by
`make_new_character_schema` (`rpg_core.py`). `cls` embeds the `"class"`
key (a Lean keyword). -/
structure Character where
  schema_version : Int
  owner_id : Int
  name : String
  race : String
  cls : String
  archetype : String
  pv : Reserve
  pm : Reserve
  destiny : Reserve
  damage_base : DamageBase
  facts : Facts
  difficulty : String
  ruptured_facts : List String
  xp : Int
  created_at : String
  updated_at : String
  deriving DecidableEq, Repr

/-- Character record of the `main.py` schema (the second, free-form
implementation: `condition`/`flaw` instead of reserves/difficulty),
after `ensure_char_defaults` has filled every structural field. -/
structure MainChar where
  user_id : String
  name : String
  facts : Facts
  flaw : String
  condition : Reserve
  xp : Int
  ruptured_facts : List String
  created_at : String
  updated_at : String
  deriving DecidableEq, Repr

/-! ## Python list indexing semantics -/

/-- Resolution of a Python `list` subscript: a non-negative index must be
`< n`; a negative index counts from the end (`i + n`); anything else is an
`IndexError` (`none`). -/
def pyResolveIdx (n : Nat) (i : Int) : Option Nat :=
  if 0 ≤ i then
    if i < (n : Int) then some i.toNat else none
  else
    if 0 ≤ i + (n : Int) then some (i + (n : Int)).toNat else none

/-- Python `arr[i]` on a list. -/
def pyListGet {α : Type} (l : List α) (i : Int) : Option α :=
  (pyResolveIdx l.length i).bind fun k => l[k]?

/-- Python `old = arr[i]; arr[i] = v`: returns the old element and the
updated list, or `none` for an `IndexError`. -/
def pyListSet (arr : List String) (i : Int) (v : String) :
    Option (String × List String) :=
  match pyResolveIdx arr.length i with
  | none => none
  | some k =>
    match arr[k]? with
    | none => none
    | some old => some (old, arr.set k v)

theorem pyResolveIdx_spec {n : Nat} {i : Int} {k : Nat}
    (h : pyResolveIdx n i = some k) :
    k < n ∧ (0 ≤ i → (k : Int) = i) := by
  unfold pyResolveIdx at h
  split_ifs at h with h0 h1 h2
  · injection h with h
    subst h
    omega
  · injection h with h
    subst h
    omega

theorem pyListSet_spec {arr : List String} {i : Int} {v old : String}
    {arr2 : List String} (h : pyListSet arr i v = some (old, arr2)) :
    ∃ k : Nat, k < arr.length ∧ arr[k]? = some old ∧ arr2 = arr.set k v ∧
      (0 ≤ i → (k : Int) = i) := by
  unfold pyListSet at h
  cases hr : pyResolveIdx arr.length i with
  | none => rw [hr] at h; exact absurd h (by simp)
  | some k =>
    rw [hr] at h
    dsimp only at h
    cases hg : arr[k]? with
    | none => rw [hg] at h; exact absurd h (by simp)
    | some o =>
      rw [hg] at h
      dsimp only at h
      injection h with h
      injection h with h1 h2
      obtain ⟨hk, hi⟩ := pyResolveIdx_spec hr
      exact ⟨k, hk, h1 ▸ hg, h2.symm, hi⟩

theorem pyListSet_of_lt {arr : List String} {k : Nat}
    (h : k < arr.length) (v : String) :
    ∃ old, arr[k]? = some old ∧
      pyListSet arr (k : Int) v = some (old, arr.set k v) := by
  cases hg : arr[k]? with
  | none =>
    rw [List.getElem?_eq_none_iff] at hg
    omega
  | some old =>
    refine ⟨old, rfl, ?_⟩
    unfold pyListSet pyResolveIdx
    have h0 : (0 : Int) ≤ (k : Int) := Int.natCast_nonneg k
    have h1 : (k : Int) < (arr.length : Int) := by exact_mod_cast h
    simp only [if_pos h0, if_pos h1, Int.toNat_natCast]
    rw [hg]

/-! ## Fact helpers (`rpg_core.py`) -/

/-- Timeline bucket tag: the strings `'past' | 'present' | 'future'`. -/
inductive Kind where
  | past
  | present
  | future
  deriving DecidableEq, Repr

/-- The `{"past": "Passado", "present": "Presente", "future": "Futuro"}`
label dictionary. -/
def kindLabel : Kind → String
  | .past => "Passado"
  | .present => "Presente"
  | .future => "Futuro"

/-- Helper: one bucket of `_all_facts_with_index`, starting at a given
running global index. -/
def withIdx (k : Kind) (arr : List String) (start : Nat) :
    List (Kind × String × Nat) :=
  match arr with
  | [] => []
  | s :: rest => (k, s, start) :: withIdx k rest (start + 1)

/-- Embeds `_all_facts_with_index` (`rpg_core.py`): the `(kind, fact_text,
global_index)` triples in past-present-future order. -/
def all_facts_with_index (f : Facts) : List (Kind × String × Nat) :=
  withIdx .past f.past 0 ++
    withIdx .present f.present f.past.length ++
    withIdx .future f.future (f.past.length + f.present.length)

/-- The label truncation `f if len(f) <= 80 else f[:77] + "..."` shared by
every option builder. -/
def shorten (s : String) : String :=
  if s.toList.length ≤ 80 then s else String.mk (s.toList.take 77) ++ "..."

/-- Embeds `_options_all_facts` (`rpg_core.py`): `(label, str(global_index))`
pairs for every fact (no skipping). -/
def _options_all_facts (f : Facts) : List (String × String) :=
  (all_facts_with_index f).map fun x =>
    (kindLabel x.1 ++ ": " ++ shorten x.2.1, toString x.2.2)

/-- Embeds `_options_non_ruptured_facts` (`rpg_core.py`): same pairs but facts
whose text is in `ruptured_facts` are skipped. -/
def _options_non_ruptured_facts (f : Facts) (rupt : List String) :
    List (String × String) :=
  ((all_facts_with_index f).filter fun x => !(rupt.contains x.2.1)).map
    fun x => (kindLabel x.1 ++ ": " ++ shorten x.2.1, toString x.2.2)

/-- Embeds `_set_fact_by_global_index` (`rpg_core.py`): walks the buckets with a
running offset; the bucket test is `global_index < idx + len(arr)` and the
bucket subscript is plain Python indexing (so negative indices reach into
a bucket from its end, and can raise `IndexError`, modelled as
`Except.error`).  Falling off the loop returns Python `None`, modelled as
`.ok (none, f)` with the facts unchanged. -/
def set_fact_by_global_index (f : Facts) (gi : Int) (t : String) :
    Except Unit (Option String × Facts) :=
  if gi < (f.past.length : Int) then
    match pyListSet f.past gi t with
    | some (old, arr) => .ok (some old, { f with past := arr })
    | none => .error ()
  else if gi - f.past.length < (f.present.length : Int) then
    match pyListSet f.present (gi - f.past.length) t with
    | some (old, arr) => .ok (some old, { f with present := arr })
    | none => .error ()
  else if gi - f.past.length - f.present.length < (f.future.length : Int) then
    match pyListSet f.future (gi - f.past.length - f.present.length) t with
    | some (old, arr) => .ok (some old, { f with future := arr })
    | none => .error ()
  else .ok (none, f)

/-! ## Fact helpers (`main.py`) -/

/-- Embeds `set_fact_by_index` (`main.py`): explicit bounds guard
`index < 0 or index >= total` returning `None`, then nonnegative bucket
indexing. -/
def set_fact_by_index (f : Facts) (index : Int) (t : String) :
    Option (String × Facts) :=
  if index < 0 ∨
      (f.past.length + f.present.length + f.future.length : Int) ≤ index then
    none
  else if index < (f.past.length : Int) then
    (pyListSet f.past index t).map fun p => (p.1, { f with past := p.2 })
  else if index - f.past.length < (f.present.length : Int) then
    (pyListSet f.present (index - f.past.length) t).map
      fun p => (p.1, { f with present := p.2 })
  else
    (pyListSet f.future (index - f.past.length - f.present.length) t).map
      fun p => (p.1, { f with future := p.2 })

/-- One bucket scan of `list_all_fact_options` /
`list_fact_options_not_ruptured` (`main.py`): the running counter `idx`
advances for every fact, including the skipped ones; `skipRuptured`
selects between the two builders. -/
def scanOpts (skipRuptured : Bool) (rupt : List String) (kind : String) :
    List String → Nat → List (String × String)
  | [], _ => []
  | fact :: rest, idx =>
    let tail := scanOpts skipRuptured rupt kind rest (idx + 1)
    if fact = "" then tail
    else if skipRuptured && rupt.contains fact then tail
    else (kind ++ ": " ++ shorten fact, toString idx) :: tail

/-- Embeds `list_all_fact_options` (`main.py`). -/
def list_all_fact_options (f : Facts) : List (String × String) :=
  scanOpts false [] "Passado" f.past 0 ++
    scanOpts false [] "Presente" f.present f.past.length ++
    scanOpts false [] "Futuro" f.future (f.past.length + f.present.length)

/-- Embeds `list_fact_options_not_ruptured` (`main.py`). -/
def list_fact_options_not_ruptured (f : Facts) (rupt : List String) :
    List (String × String) :=
  scanOpts true rupt "Passado" f.past 0 ++
    scanOpts true rupt "Presente" f.present f.past.length ++
    scanOpts true rupt "Futuro" f.future (f.past.length + f.present.length)

/-! ## The single-choice prompt (`dm_select_one`, `rpg_core.py`) and the
select constructions of `main.py` -/

/-- The option rows `dm_select_one` builds: it iterates over
`option_tuples[:25]` and, crucially, sets each row's `value` to the row's
`label` (the second tuple component is only used as the description). -/
def dm_select_one_options (option_tuples : List (String × String)) :
    List (String × String) :=
  option_tuples.take 25

/-- Resolution of `dm_select_one` when the prompt owner picks row `k`:
the callback stores `select.values[0]`, which is the `value` of the
selected row — i.e. the *label* (first component) of the `k`-th tuple. -/
def dm_select_one_resolve (option_tuples : List (String × String))
    (k : Nat) : Option String :=
  ((dm_select_one_options option_tuples).map fun p => p.1)[k]?

/-- The option rows of `main.py`'s `RupturaSelect` / `EditarFatoSelect`:
`options_pairs[:25]`, with `value` set to the pair's second component. -/
def main_select_options (options_pairs : List (String × String)) :
    List (String × String) :=
  options_pairs.take 25

/-- Python `int(s)`: optional surrounding whitespace, an optional sign,
then at least one digit; anything else raises `ValueError` (`none`).
(Underscore digit grouping is not modelled; no input in this development
uses it.) -/
def pyInt (s : String) : Option Int :=
  let cs := (s.toList.dropWhile Char.isWhitespace).reverse.dropWhile
    Char.isWhitespace |>.reverse
  match cs with
  | [] => none
  | c :: rest =>
    let p : Int × List Char :=
      if c = '-' then (-1, rest) else if c = '+' then (1, rest) else (1, cs)
    if p.2.isEmpty then none
    else if p.2.all Char.isDigit then
      some (p.1 * (p.2.foldl (fun a d => a * 10 + (d.toNat - 48)) 0 : Nat))
    else none

/-! ## Workflow state updates -/

/-- Embeds `xp_adjust` (`rpg_core.py`):
`char["xp"] = max(0, int(char.get("xp", 0)) + int(delta))` plus the
`updated_at` refresh. -/
def xp_adjust (c : Character) (delta : Int) (now : String) : Character :=
  { c with xp := max 0 (c.xp + delta), updated_at := now }

/-- The XP update of the `personagem_xp` command (`main.py`):
`char["xp"] = int(char.get("xp", 0)) + int(delta)` — no clamping. -/
def personagem_xp_update (m : MainChar) (delta : Int) (now : String) :
    MainChar :=
  { m with xp := m.xp + delta, updated_at := now }

/-- The timeline dictionary
`{"Passado": "past", "Presente": "present", "Futuro": "future"}`;
`none` models the `KeyError` raised on any other key. -/
def kind_key (s : String) : Option Kind :=
  if s = "Passado" then some .past
  else if s = "Presente" then some .present
  else if s = "Futuro" then some .future
  else none

/-- Embeds `char["facts"][kind_key].append(txt)`. -/
def appendFact (f : Facts) (k : Kind) (t : String) : Facts :=
  match k with
  | .past => { f with past := f.past ++ [t] }
  | .present => { f with present := f.present ++ [t] }
  | .future => { f with future := f.future ++ [t] }

/-- Outcome of `add_fact_with_xp` (`rpg_core.py`): the stored record
after the flow and how many dialog prompts (`dm_select_one` /
`dm_ask_text`) were issued before it ended; `keyError` models the
unhandled dictionary lookup on an unknown timeline label. -/
inductive AddFactResult where
  | noXP (c : Character) (prompts : Nat)
  | cancelled (c : Character) (prompts : Nat)
  | keyError
  | success (c : Character) (prompts : Nat)
  deriving DecidableEq, Repr

/-- Embeds `add_fact_with_xp` (`rpg_core.py`), parameterized by the answers the
Dialog Engine would return (`none` = timeout/`None`; the empty string is
also treated as falsy by the `if not ...` guards). The XP gate runs
before any prompt. -/
def add_fact_with_xp (c : Character) (kindChoice : Option String)
    (txt : Option String) (now : String) : AddFactResult :=
  if c.xp < XP_COST_NEW_FACT then .noXP c 0
  else
    match kindChoice with
    | none => .cancelled c 1
    | some kind =>
      if kind = "" then .cancelled c 1
      else
        match kind_key kind with
        | none => .keyError
        | some kk =>
          match txt with
          | none => .cancelled c 2
          | some t =>
            if t = "" then .cancelled c 2
            else
              .success
                { c with xp := c.xp - XP_COST_NEW_FACT,
                         facts := appendFact c.facts kk t,
                         updated_at := now } 2

/-- The tail of `edit_fact_flow` (`rpg_core.py`) once the selection
resolved to `idx`: the display lookup `_all_facts_with_index(char)[idx][1]`
(which can raise `IndexError`), then `_set_fact_by_global_index`, then the
remove-old/append-new fix-up of `ruptured_facts`. -/
def edit_apply (c : Character) (idx : Int) (txt : String) (now : String) :
    Except Unit (Bool × Character) :=
  match pyListGet ((all_facts_with_index c.facts).map fun x => x.2.1) idx with
  | none => .error ()
  | some _ =>
    match set_fact_by_global_index c.facts idx txt with
    | .error e => .error e
    | .ok (none, _) => .ok (false, c)
    | .ok (some old, f') =>
      let rupt2 :=
        if c.ruptured_facts.contains old then
          (c.ruptured_facts.filter fun x => x != old) ++ [txt]
        else c.ruptured_facts
      .ok (true, { c with facts := f', ruptured_facts := rupt2,
                          updated_at := now })

/-- The rupture fix-up of `EditarFatoModal.on_submit` (`main.py`):
in-place replacement
`[new_text if x == old_text else x for x in ruptured]`. -/
def editar_fato_ruptured_update (rupt : List String) (old newText : String) :
    List String :=
  rupt.map fun x => if x == old then newText else x

/-- The tail of `rupture_fact_flow` (`rpg_core.py`) once the selection
resolved to `idx`: look up the chosen text (Python indexing), append it to
`ruptured_facts` unless already present, grant `+1` XP and restore
`pv.current` / `pm.current` to their maxima (destiny untouched). -/
def rupture_apply (c : Character) (idx : Int) (now : String) :
    Except Unit Character :=
  match pyListGet ((all_facts_with_index c.facts).map fun x => x.2.1) idx with
  | none => .error ()
  | some fact_text =>
    .ok { c with
      ruptured_facts :=
        if c.ruptured_facts.contains fact_text then c.ruptured_facts
        else c.ruptured_facts ++ [fact_text],
      xp := c.xp + 1,
      pv := { c.pv with current := c.pv.max },
      pm := { c.pm with current := c.pm.max },
      updated_at := now }

/-- Embeds `RupturaSelect.callback` (`main.py`) after the owner picked
`chosen_index`: bounds-check against the flattened facts, reject an
already-ruptured text, else only append it — no XP grant, no gauge
restore. `none` models every error reply. -/
def ruptura_select_callback (m : MainChar) (chosen_index : Int)
    (now : String) : Option MainChar :=
  let flat := flatten_facts m.facts
  if chosen_index < 0 ∨ (flat.length : Int) ≤ chosen_index then none
  else
    match flat[chosen_index.toNat]? with
    | none => none
    | some fact_text =>
      if m.ruptured_facts.contains fact_text then none
      else some { m with ruptured_facts := m.ruptured_facts ++ [fact_text],
                         updated_at := now }

/-! ## Creation and storage -/

/-- Lookup in the user-id-keyed document (`data.get(uid)`). -/
def store_get {α : Type} (s : List (String × α)) (k : String) : Option α :=
  (s.find? fun p => p.1 == k).map fun p => p.2

/-- Assignment `data[uid] = char` on the document. -/
def store_set {α : Type} (s : List (String × α)) (k : String) (v : α) :
    List (String × α) :=
  (k, v) :: s.filter fun p => p.1 != k

/-- The `ARCHETYPES` catalog (`rpg_core.py`):
`key ↦ (pv, pm, dano_fisico_base, bonus_magico)`. -/
def ARCHETYPES (key : String) : Option (Int × Int × Int × Int) :=
  if key = "linha_de_frente" then some (8, 3, 2, 0)
  else if key = "combatente" then some (7, 3, 3, 0)
  else if key = "especialista" then some (6, 4, 2, 0)
  else if key = "utilitario" then some (5, 4, 2, 0)
  else if key = "conjurador" then some (4, 5, 1, 1)
  else none

/-- Embeds `make_new_character_schema` (`rpg_core.py`): both timestamps are the
construction time. -/
def make_new_character_schema (user_id : Int) (now : String) : Character :=
  { schema_version := 2, owner_id := user_id, name := "", race := "",
    cls := "", archetype := "", pv := ⟨0, 0⟩, pm := ⟨0, 0⟩,
    destiny := ⟨DEFAULT_DESTINY_MAX, DEFAULT_DESTINY_MAX⟩,
    damage_base := ⟨0, 0⟩, facts := ⟨[], [], []⟩, difficulty := "",
    ruptured_facts := [], xp := 0, created_at := now, updated_at := now }

/-- Embeds `apply_archetype` (`rpg_core.py`); `none` models the `KeyError` on an
unknown key. -/
def apply_archetype (c : Character) (key : String) : Option Character :=
  (ARCHETYPES key).map fun a =>
    { c with archetype := key, pv := ⟨a.1, a.1⟩, pm := ⟨a.2.1, a.2.1⟩,
             destiny := ⟨DEFAULT_DESTINY_MAX, DEFAULT_DESTINY_MAX⟩,
             damage_base := ⟨a.2.2.1, a.2.2.2⟩ }

/-- A completed run of `run_character_wizard` (`rpg_core.py`): a fresh
schema record (timestamps = wizard start), the twelve answers filled in
(all non-empty, or the wizard would have aborted), `updated_at` refreshed
at the end.  `created_at` is whatever `make_new_character_schema` put
there. -/
def run_character_wizard_complete (uid : Int) (wizStart wizEnd : String)
    (name race clazz archKey p1 p2 p3 q1 q2 q3 fut diff : String) :
    Option Character :=
  if name = "" ∨ race = "" ∨ clazz = "" ∨ archKey = "" ∨ p1 = "" ∨ p2 = "" ∨
      p3 = "" ∨ q1 = "" ∨ q2 = "" ∨ q3 = "" ∨ fut = "" ∨ diff = "" then none
  else
    (apply_archetype
        { make_new_character_schema uid wizStart with
            name := name, race := race, cls := clazz }
        archKey).map
      fun c =>
        { c with facts := ⟨[p1, p2, p3], [q1, q2, q3], [fut]⟩,
                 difficulty := diff, updated_at := wizEnd }

/-- Embeds `criar_personagem` (`bot.py`) persisting the completed wizard record:
`save_character` stores it as-is under the owner key. -/
def criar_personagem_store (s : List (String × Character)) (uid : Int)
    (c : Character) : List (String × Character) :=
  store_set s (toString uid) c

/-- The record built and stored by `personagem_criar` (`main.py`):
`created_at` is `data.get(uid, {}).get("created_at", now)` — preserved
from a prior record when one exists. -/
def personagem_criar_record (s : List (String × MainChar)) (uid : String)
    (now name p1 p2 q1 q2 fut flaw : String) : MainChar :=
  { user_id := uid, name := name,
    facts := ⟨[p1, p2], [q1, q2], [fut]⟩, flaw := flaw,
    condition := ⟨DEFAULT_CONDITION_MAX, DEFAULT_CONDITION_MAX⟩, xp := 0,
    ruptured_facts := [],
    created_at :=
      match store_get s uid with
      | some old => old.created_at
      | none => now,
    updated_at := now }

/-! ## Specification of `_set_fact_by_global_index` -/

theorem length_flatten_facts (f : Facts) :
    (flatten_facts f).length =
      f.past.length + f.present.length + f.future.length := by
  simp [flatten_facts]
  omega

/-- Whenever `_set_fact_by_global_index` returns an old text, the update
is a single-position `set` of the flattened sequence, the returned text is
the element previously there, bucket lengths are untouched, and for a
non-negative requested index the position is that index. -/
theorem set_fact_ok_spec {f : Facts} {gi : Int} {t old : String} {f' : Facts}
    (h : set_fact_by_global_index f gi t = .ok (some old, f')) :
    ∃ j : Nat, (flatten_facts f)[j]? = some old ∧
      flatten_facts f' = (flatten_facts f).set j t ∧
      f'.past.length = f.past.length ∧
      f'.present.length = f.present.length ∧
      f'.future.length = f.future.length ∧
      (0 ≤ gi → (j : Int) = gi) := by
  unfold set_fact_by_global_index at h
  split_ifs at h with h1 h2 h3
  · cases hp : pyListSet f.past gi t with
    | none => rw [hp] at h; exact absurd h (by simp)
    | some p =>
      obtain ⟨o, arr⟩ := p
      rw [hp] at h
      dsimp only at h
      injection h with h
      injection h with hold hf'
      injection hold with hold
      obtain ⟨k, hk, hget, harr, hknn⟩ := pyListSet_spec hp
      refine ⟨k, ?_, ?_, ?_, ?_, ?_, ?_⟩
      · rw [flatten_facts, List.append_assoc, List.getElem?_append_left hk,
          hget, hold]
      · rw [← hf', flatten_facts, flatten_facts]
        simp only [harr]
        rw [List.append_assoc, List.append_assoc, List.set_append_left _ _ hk]
      · rw [← hf']; simp [harr]
      · rw [← hf']
      · rw [← hf']
      · intro hnn
        exact hknn hnn
  · cases hp : pyListSet f.present (gi - f.past.length) t with
    | none => rw [hp] at h; exact absurd h (by simp)
    | some p =>
      obtain ⟨o, arr⟩ := p
      rw [hp] at h
      dsimp only at h
      injection h with h
      injection h with hold hf'
      injection hold with hold
      obtain ⟨k, hk, hget, harr, hknn⟩ := pyListSet_spec hp
      have hoff : 0 ≤ gi - (f.past.length : Int) := by omega
      have hkeq : (k : Int) = gi - f.past.length := hknn hoff
      refine ⟨f.past.length + k, ?_, ?_, ?_, ?_, ?_, ?_⟩
      · rw [flatten_facts, List.append_assoc,
          List.getElem?_append_right (by omega)]
        have hsub : f.past.length + k - f.past.length = k := by omega
        rw [hsub, List.getElem?_append_left hk, hget, hold]
      · rw [← hf', flatten_facts, flatten_facts]
        simp only [harr]
        rw [List.append_assoc, List.append_assoc,
          List.set_append_right _ _ (by omega)]
        have : f.past.length + k - f.past.length = k := by omega
        rw [this, List.set_append_left _ _ hk]
      · rw [← hf']
      · rw [← hf']; simp [harr]
      · rw [← hf']
      · intro _
        omega
  · cases hp : pyListSet f.future (gi - f.past.length - f.present.length) t with
    | none => rw [hp] at h; exact absurd h (by simp)
    | some p =>
      obtain ⟨o, arr⟩ := p
      rw [hp] at h
      dsimp only at h
      injection h with h
      injection h with hold hf'
      injection hold with hold
      obtain ⟨k, hk, hget, harr, hknn⟩ := pyListSet_spec hp
      have hoff : 0 ≤ gi - (f.past.length : Int) - f.present.length := by omega
      have hkeq : (k : Int) = gi - f.past.length - f.present.length := hknn hoff
      refine ⟨f.past.length + f.present.length + k, ?_, ?_, ?_, ?_, ?_, ?_⟩
      · rw [flatten_facts, List.append_assoc,
          List.getElem?_append_right (by omega)]
        have : f.past.length + f.present.length + k - f.past.length =
          f.present.length + k := by omega
        rw [this, List.getElem?_append_right (by omega)]
        have : f.present.length + k - f.present.length = k := by omega
        rw [this, hget, hold]
      · rw [← hf', flatten_facts, flatten_facts]
        simp only [harr]
        rw [List.append_assoc, List.append_assoc,
          List.set_append_right _ _ (by omega)]
        have : f.past.length + f.present.length + k - f.past.length =
          f.present.length + k := by omega
        rw [this, List.set_append_right _ _ (by omega)]
        have : f.present.length + k - f.present.length = k := by omega
        rw [this]
      · rw [← hf']
      · rw [← hf']
      · rw [← hf']; simp [harr]
      · intro _
        omega
  · exact absurd h (by simp)

/-- For a valid (in-range, non-negative) global index the update always
succeeds and returns an old text. -/
theorem set_fact_valid_total {f : Facts} {i : Nat}
    (h : i < (flatten_facts f).length) (t : String) :
    ∃ old f', set_fact_by_global_index f (i : Int) t = .ok (some old, f') := by
  have htot : i < f.past.length + f.present.length + f.future.length := by
    rw [← length_flatten_facts]; exact h
  unfold set_fact_by_global_index
  by_cases h1 : i < f.past.length
  · rw [if_pos (by exact_mod_cast h1)]
    obtain ⟨old, _, hs⟩ := pyListSet_of_lt h1 t
    rw [hs]
    exact ⟨old, _, rfl⟩
  · rw [if_neg (by omega)]
    by_cases h2 : i - f.past.length < f.present.length
    · have hcast : (i : Int) - f.past.length = ((i - f.past.length : Nat) : Int) := by
        omega
      rw [if_pos (by rw [hcast]; exact_mod_cast h2)]
      obtain ⟨old, _, hs⟩ := pyListSet_of_lt h2 t
      rw [hcast, hs]
      exact ⟨old, _, rfl⟩
    · have h3 : i - f.past.length - f.present.length < f.future.length := by
        omega
      have hcast : (i : Int) - f.past.length - f.present.length =
          ((i - f.past.length - f.present.length : Nat) : Int) := by omega
      rw [if_neg (by omega), if_pos (by rw [hcast]; exact_mod_cast h3)]
      obtain ⟨old, _, hs⟩ := pyListSet_of_lt h3 t
      rw [hcast, hs]
      exact ⟨old, _, rfl⟩

/-- C4: editing at a valid global index `i` replaces exactly the fact at
`i` with the new text, returns the text previously at `i`, and leaves
every other global index (and all bucket lengths) unchanged. -/
theorem c4_set_fact_valid_index (f : Facts) (i : Nat) (t : String)
    (h : i < (flatten_facts f).length) :
    ∃ old f', set_fact_by_global_index f (i : Int) t = .ok (some old, f') ∧
      (flatten_facts f)[i]? = some old ∧
      flatten_facts f' = (flatten_facts f).set i t ∧
      (flatten_facts f')[i]? = some t ∧
      (∀ j : Nat, j ≠ i → (flatten_facts f')[j]? = (flatten_facts f)[j]?) ∧
      f'.past.length = f.past.length ∧
      f'.present.length = f.present.length ∧
      f'.future.length = f.future.length := by
  obtain ⟨old, f', hs⟩ := set_fact_valid_total h t
  obtain ⟨j, hget, hflat, hp, hq, hr, hj⟩ := set_fact_ok_spec hs
  have hji : j = i := by
    have := hj (Int.natCast_nonneg i)
    exact_mod_cast this
  subst hji
  refine ⟨old, f', hs, hget, hflat, ?_, ?_, hp, hq, hr⟩
  · rw [hflat]
    exact List.getElem?_set_self h
  · intro m hm
    rw [hflat]
    exact List.getElem?_set_ne (fun hh => hm hh.symm)

/-! ## Shared helper lemmas -/

theorem withIdx_length (k : Kind) (arr : List String) (s : Nat) :
    (withIdx k arr s).length = arr.length := by
  induction arr generalizing s with
  | nil => rfl
  | cons a rest ih => simp [withIdx, ih]

theorem withIdx_texts (k : Kind) (arr : List String) (s : Nat) :
    (withIdx k arr s).map (fun x => x.2.1) = arr := by
  induction arr generalizing s with
  | nil => rfl
  | cons a rest ih => simp [withIdx, ih]

/-- The text column of `_all_facts_with_index` is exactly the flattened
fact sequence: the triples' global indices address `flatten_facts`. -/
theorem all_facts_texts (f : Facts) :
    (all_facts_with_index f).map (fun x => x.2.1) = flatten_facts f := by
  simp [all_facts_with_index, flatten_facts, withIdx_texts]

theorem all_facts_with_index_length (f : Facts) :
    (all_facts_with_index f).length =
      f.past.length + f.present.length + f.future.length := by
  simp [all_facts_with_index, withIdx_length]
  omega

theorem contains_eq_decide_mem (l : List String) (a : String) :
    l.contains a = decide (a ∈ l) := by
  simp [List.contains]

theorem flatten_getElem?_past {f : Facts} {j : Nat} (h : j < f.past.length) :
    (flatten_facts f)[j]? = f.past[j]? := by
  rw [flatten_facts, List.append_assoc, List.getElem?_append_left h]

theorem flatten_getElem?_present {f : Facts} {j : Nat}
    (h : j < f.present.length) :
    (flatten_facts f)[f.past.length + j]? = f.present[j]? := by
  rw [flatten_facts, List.append_assoc,
    List.getElem?_append_right (by omega)]
  have hs : f.past.length + j - f.past.length = j := by omega
  rw [hs, List.getElem?_append_left h]

theorem flatten_getElem?_future {f : Facts} {j : Nat} :
    (flatten_facts f)[f.past.length + f.present.length + j]? =
      f.future[j]? := by
  rw [flatten_facts, List.append_assoc,
    List.getElem?_append_right (by omega)]
  have hs : f.past.length + f.present.length + j - f.past.length =
      f.present.length + j := by omega
  rw [hs, List.getElem?_append_right (by omega)]
  have hs2 : f.present.length + j - f.present.length = j := by omega
  rw [hs2]

/-- Evaluation of `pyListGet` of a valid non-negative index is the plain lookup. -/
theorem pyListGet_natCast {α : Type} {l : List α} {i : Nat}
    (h : i < l.length) : pyListGet l (i : Int) = l[i]? := by
  unfold pyListGet pyResolveIdx
  rw [if_pos (Int.natCast_nonneg i), if_pos (by exact_mod_cast h)]
  simp [Int.toNat_natCast]

/-! ## C1 — what `dm_select_one` hands back to `edit_fact_flow` -/

/-- C1 (code bug): for the one-fact character `past=["A"]`, the option
pair built by `_options_all_facts` is `("Passado: A", "0")`, i.e. the
global-index token is the second component; but `dm_select_one` resolves
the prompt with the row's *label* `"Passado: A"` (it sets `value=label`),
and `int("Passado: A")` — the next step of `edit_fact_flow` — raises
`ValueError`, while the token `"0"` the claim expects would have parsed.
So the workflow never reaches the fact edit. -/
theorem c1_dm_select_one_returns_label_eval :
    _options_all_facts ⟨["A"], [], []⟩ = [("Passado: A", "0")] ∧
    dm_select_one_resolve (_options_all_facts ⟨["A"], [], []⟩) 0 =
      some "Passado: A" ∧
    pyInt "Passado: A" = none ∧
    pyInt "0" = some 0 := by
  exact ⟨by decide, by decide, by decide, by decide⟩

/-! ## C2 — out-of-range behaviour of the index-based fact update -/

/-- C2 (code bug): `_set_fact_by_global_index` (`rpg_core.py`) does not
reject negative indices: at `past=["A","B"], present=["C"], future=[]`
and `i = -1` it edits `past[-1]` (Python end-relative indexing), returning
the old text `"B"` instead of the `None`-and-unchanged the claim states;
on an empty first bucket a negative index raises `IndexError`.  `main.py`'s
`set_fact_by_index` has the explicit guard and returns `None`. -/
theorem c2_negative_index_eval :
    set_fact_by_global_index ⟨["A", "B"], ["C"], []⟩ (-1) "X" =
      .ok (some "B", ⟨["A", "X"], ["C"], []⟩) ∧
    set_fact_by_global_index ⟨[], [], ["F"]⟩ (-2) "X" = .error () ∧
    set_fact_by_global_index ⟨["A", "B"], ["C"], []⟩ 3 "X" =
      .ok (none, ⟨["A", "B"], ["C"], []⟩) ∧
    set_fact_by_index ⟨["A", "B"], ["C"], []⟩ (-1) "X" = none ∧
    set_fact_by_index ⟨["A", "B"], ["C"], []⟩ 3 "X" = none := by
  exact ⟨rfl, rfl, rfl, by decide, by decide⟩

/-! ## C3 — direct XP adjustment -/

/-- C3 (amended): `rpg_core.py`'s `xp_adjust` sets the XP to
`max(0, x + delta)` and therefore never leaves it negative, but the
`personagem_xp` command of `main.py` applies the delta without clamping. -/
theorem c3_xp_adjust_clamps (c : Character) (m : MainChar) (delta : Int)
    (now : String) :
    (xp_adjust c delta now).xp = max 0 (c.xp + delta) ∧
    0 ≤ (xp_adjust c delta now).xp ∧
    (personagem_xp_update m delta now).xp = m.xp + delta := by
  exact ⟨rfl, le_max_left _ _, rfl⟩

/-- A concrete stored `main.py` record used in several evaluations. -/
def exMain0 : MainChar :=
  { user_id := "1", name := "N", facts := ⟨["A"], [], []⟩, flaw := "",
    condition := ⟨3, 3⟩, xp := 0, ruptured_facts := [],
    created_at := "T0", updated_at := "T0" }

/-- C3 (counterexample): adjusting XP by `-1` on a `main.py` record with
`xp = 0` stores `-1`, not `max(0, 0 + (-1)) = 0` — the direct adjust of
`main.py` can leave XP negative. -/
theorem c3_main_xp_unclamped_counterexample :
    (personagem_xp_update exMain0 (-1) "T1").xp = -1 ∧
    (personagem_xp_update exMain0 (-1) "T1").xp < 0 ∧
    max 0 (exMain0.xp + (-1)) = 0 := by
  exact ⟨by decide, by decide, by decide⟩

/-- Witness for C4: the spec's scenario `past=["A","B"], present=["C"],
future=[]`, setting global index `2` to `"C2"` — the old text is `"C"` and
the present bucket becomes `["C2"]`. -/
theorem c4_set_fact_valid_index_witness :
    2 < (flatten_facts ⟨["A", "B"], ["C"], []⟩).length ∧
    (∃ old f',
      set_fact_by_global_index ⟨["A", "B"], ["C"], []⟩ ((2 : Nat) : Int) "C2" =
        .ok (some old, f') ∧
      (flatten_facts ⟨["A", "B"], ["C"], []⟩)[2]? = some old ∧
      flatten_facts f' = (flatten_facts ⟨["A", "B"], ["C"], []⟩).set 2 "C2" ∧
      (flatten_facts f')[2]? = some "C2" ∧
      (∀ j : Nat, j ≠ 2 → (flatten_facts f')[j]? =
        (flatten_facts ⟨["A", "B"], ["C"], []⟩)[j]?) ∧
      f'.past.length = (⟨["A", "B"], ["C"], []⟩ : Facts).past.length ∧
      f'.present.length = (⟨["A", "B"], ["C"], []⟩ : Facts).present.length ∧
      f'.future.length = (⟨["A", "B"], ["C"], []⟩ : Facts).future.length) ∧
    set_fact_by_global_index ⟨["A", "B"], ["C"], []⟩ ((2 : Nat) : Int) "C2" =
      .ok (some "C", ⟨["A", "B"], ["C2"], []⟩) :=
  ⟨by decide,
    c4_set_fact_valid_index ⟨["A", "B"], ["C"], []⟩ 2 "C2" (by decide), rfl⟩

/-! ## C5 — the edit flow keeps rupture status attached to the fact -/

/-- C5 (amended): in `edit_fact_flow`, when the replaced text was in
`ruptured_facts` and the new text differs from the old, after the edit
`ruptured_facts` contains the new text and no longer contains the old;
and if every ruptured entry corresponded to a fact before the edit, that
correspondence still holds afterwards. -/
theorem c5_edit_rupture_follows (c : Character) (i : Nat)
    (txt old now : String)
    (hget : (flatten_facts c.facts)[i]? = some old)
    (hmem : old ∈ c.ruptured_facts)
    (hne : txt ≠ old) :
    ∃ c', edit_apply c (i : Int) txt now = .ok (true, c') ∧
      txt ∈ c'.ruptured_facts ∧ old ∉ c'.ruptured_facts ∧
      ((∀ r ∈ c.ruptured_facts, r ∈ flatten_facts c.facts) →
        ∀ r ∈ c'.ruptured_facts, r ∈ flatten_facts c'.facts) := by
  obtain ⟨hi, -⟩ := List.getElem?_eq_some_iff.mp hget
  obtain ⟨old', f', hs⟩ := set_fact_valid_total hi txt
  obtain ⟨j, hget', hflat, -, -, -, hj⟩ := set_fact_ok_spec hs
  have hji : j = i := by exact_mod_cast hj (Int.natCast_nonneg i)
  rw [hji] at hget' hflat
  have holdeq : old' = old := by
    rw [hget] at hget'
    injection hget' with hh
    exact hh.symm
  rw [holdeq] at hs
  have htexts : ((all_facts_with_index c.facts).map fun x => x.2.1) =
      flatten_facts c.facts := all_facts_texts c.facts
  have hcon : c.ruptured_facts.contains old = true := by
    rw [contains_eq_decide_mem]
    exact decide_eq_true hmem
  refine ⟨{ c with
            facts := f'
            ruptured_facts :=
              (c.ruptured_facts.filter fun x => x != old) ++ [txt]
            updated_at := now }, ?_, ?_, ?_, ?_⟩
  · unfold edit_apply
    rw [htexts, pyListGet_natCast hi, hget]
    dsimp only
    rw [hs]
    dsimp only
    rw [if_pos hcon]
  · exact List.mem_append_right _ (List.mem_singleton.mpr rfl)
  · intro hcontra
    rcases List.mem_append.mp hcontra with hf | hsin
    · have := (List.mem_filter.mp hf).2
      simp at this
    · exact hne (List.mem_singleton.mp hsin).symm
  · intro hinv r hr
    rcases List.mem_append.mp hr with hf | hsin
    · obtain ⟨hrmem, hrneq⟩ := List.mem_filter.mp hf
      have hrne : r ≠ old := by simpa using hrneq
      obtain ⟨m, hm⟩ := List.getElem?_of_mem (hinv r hrmem)
      have hmne : i ≠ m := by
        intro he
        subst he
        rw [hget] at hm
        injection hm with hh
        exact hrne hh.symm
      refine List.mem_iff_getElem?.mpr ⟨m, ?_⟩
      rw [hflat, List.getElem?_set_ne hmne, hm]
    · have hrt : r = txt := List.mem_singleton.mp hsin
      subst hrt
      refine List.mem_iff_getElem?.mpr ⟨i, ?_⟩
      rw [hflat]
      exact List.getElem?_set_self hi

/-- A baseline concrete v2-schema record used by the evaluations. -/
def exCharBase : Character :=
  { schema_version := 2, owner_id := 1, name := "Hero", race := "Humano",
    cls := "Guerreiro", archetype := "combatente", pv := ⟨7, 7⟩,
    pm := ⟨3, 3⟩, destiny := ⟨2, 2⟩, damage_base := ⟨3, 0⟩,
    facts := ⟨["A", "B"], ["C"], []⟩, difficulty := "D",
    ruptured_facts := [], xp := 0, created_at := "T0", updated_at := "T0" }

/-- A record whose only fact `"A"` is ruptured. -/
def exChar5 : Character :=
  { exCharBase with facts := ⟨["A"], [], []⟩, ruptured_facts := ["A"] }

/-- C5 (counterexample): if the edit re-enters the *same* text
(`new = old = "A"`, allowed by the workflow — only emptiness is checked),
the old text is still a member of `ruptured_facts` afterwards, so "no
longer contains the old text" fails as universally stated. -/
theorem c5_same_text_counterexample :
    "A" ∈ exChar5.ruptured_facts ∧
    edit_apply exChar5 0 "A" "T1" =
      .ok (true, { exChar5 with
                   ruptured_facts := ["A"]
                   updated_at := "T1" }) ∧
    "A" ∈ ({ exChar5 with
             ruptured_facts := ["A"]
             updated_at := "T1" } : Character).ruptured_facts := by
  exact ⟨by decide, rfl, by decide⟩

/-- Witness for C5: `past=["A"]`, `ruptured_facts=["A"]`, editing global
index `0` to `"B"`. -/
theorem c5_edit_rupture_follows_witness :
    (flatten_facts exChar5.facts)[0]? = some "A" ∧
    "A" ∈ exChar5.ruptured_facts ∧
    "B" ≠ "A" ∧
    (∃ c', edit_apply exChar5 ((0 : Nat) : Int) "B" "T1" = .ok (true, c') ∧
      "B" ∈ c'.ruptured_facts ∧ "A" ∉ c'.ruptured_facts ∧
      ((∀ r ∈ exChar5.ruptured_facts, r ∈ flatten_facts exChar5.facts) →
        ∀ r ∈ c'.ruptured_facts, r ∈ flatten_facts c'.facts)) :=
  ⟨by decide, by decide, by decide,
    c5_edit_rupture_follows exChar5 0 "B" "A" "T1" (by decide) (by decide)
      (by decide)⟩

/-! ## C6 — effects of the rupture workflow -/

/-- C6 (amended): after the `rpg_core.py` rupture flow resolves to a fact
text that is not yet ruptured (the option list excludes ruptured texts),
that text is in `ruptured_facts` exactly once, XP is incremented by
exactly 1, `pv.current`/`pm.current` are restored to their maxima, and
destiny and the facts are untouched.  (The `main.py` rupture callback
only appends the text — see the counterexample.) -/
theorem c6_rupture_effects (c : Character) (idx : Int)
    (fact_text now : String)
    (hsel : pyListGet ((all_facts_with_index c.facts).map fun x => x.2.1)
      idx = some fact_text)
    (hnr : fact_text ∉ c.ruptured_facts) :
    ∃ c', rupture_apply c idx now = .ok c' ∧
      fact_text ∈ c'.ruptured_facts ∧
      c'.ruptured_facts.count fact_text = 1 ∧
      c'.xp = c.xp + 1 ∧
      c'.pv.current = c'.pv.max ∧
      c'.pm.current = c'.pm.max ∧
      c'.destiny = c.destiny ∧
      c'.facts = c.facts := by
  have hcon : c.ruptured_facts.contains fact_text = false := by
    rw [contains_eq_decide_mem]
    exact decide_eq_false hnr
  refine ⟨{ c with
            ruptured_facts := c.ruptured_facts ++ [fact_text]
            xp := c.xp + 1
            pv := { c.pv with current := c.pv.max }
            pm := { c.pm with current := c.pm.max }
            updated_at := now }, ?_, ?_, ?_, rfl, rfl, rfl, rfl, rfl⟩
  · unfold rupture_apply
    rw [hsel]
    dsimp only
    rw [hcon]
    rfl
  · exact List.mem_append_right _ (List.mem_singleton.mpr rfl)
  · show (c.ruptured_facts ++ [fact_text]).count fact_text = 1
    rw [List.count_append, List.count_eq_zero.mpr hnr,
      List.count_singleton_self]

/-- A record with a single fact `"A"` and nothing ruptured. -/
def exChar6 : Character :=
  { exCharBase with facts := ⟨["A"], [], []⟩, ruptured_facts := [], xp := 5 }

/-- Witness for C6: rupturing the only fact of `exChar6`. -/
theorem c6_rupture_effects_witness :
    pyListGet ((all_facts_with_index exChar6.facts).map fun x => x.2.1) 0 =
      some "A" ∧
    "A" ∉ exChar6.ruptured_facts ∧
    (∃ c', rupture_apply exChar6 0 "T1" = .ok c' ∧
      "A" ∈ c'.ruptured_facts ∧
      c'.ruptured_facts.count "A" = 1 ∧
      c'.xp = exChar6.xp + 1 ∧
      c'.pv.current = c'.pv.max ∧
      c'.pm.current = c'.pm.max ∧
      c'.destiny = exChar6.destiny ∧
      c'.facts = exChar6.facts) :=
  ⟨by decide, by decide,
    c6_rupture_effects exChar6 0 "A" "T1" (by decide) (by decide)⟩

/-- C6 (counterexample): `main.py`'s rupture select callback appends the
chosen text but grants no XP (and touches no gauge): on a record with
`xp = 0` the stored XP is still `0`, not `0 + 1`. -/
theorem c6_main_ruptura_no_xp_counterexample :
    ruptura_select_callback exMain0 0 "T1" =
      some { exMain0 with
             ruptured_facts := ["A"]
             updated_at := "T1" } ∧
    (({ exMain0 with
        ruptured_facts := ["A"]
        updated_at := "T1" } : MainChar).xp = 0 ∧
      exMain0.xp + 1 = 1) := by
  exact ⟨by decide, by decide, by decide⟩

/-! ## C7 — the XP gate of the new-fact workflow -/

/-- C7: with `xp < XP_COST_NEW_FACT` the new-fact flow of `rpg_core.py`
stops with the insufficient-XP result before issuing any dialog prompt
(prompt count 0) and leaves the record unchanged, whatever the dialog
answers would have been. -/
theorem c7_insufficient_xp_gate (c : Character) (kindChoice : Option String)
    (txt : Option String) (now : String)
    (h : c.xp < XP_COST_NEW_FACT) :
    add_fact_with_xp c kindChoice txt now = .noXP c 0 := by
  unfold add_fact_with_xp
  rw [if_pos h]

/-- Witness for C7: the spec's scenario `xp = 2` (cost 3). -/
theorem c7_insufficient_xp_gate_witness :
    ({ exCharBase with xp := 2 } : Character).xp < XP_COST_NEW_FACT ∧
    add_fact_with_xp { exCharBase with xp := 2 } (some "Passado")
      (some "Novo fato") "T1" = .noXP { exCharBase with xp := 2 } 0 :=
  ⟨by decide,
    c7_insufficient_xp_gate { exCharBase with xp := 2 } (some "Passado")
      (some "Novo fato") "T1" (by decide)⟩

/-! ## C8 — creation over an existing record -/

theorem store_get_set_self {α : Type} (s : List (String × α)) (k : String)
    (v : α) : store_get (store_set s k v) k = some v := by
  simp [store_get, store_set]

/-- C8 (amended): `main.py`'s `personagem_criar` builds the new record
with the prior record's `created_at` when one exists, and persisting it
overwrites the old record under the owner key.  (The `bot.py`/`rpg_core.py`
wizard path does *not* preserve `created_at` — see the counterexample.) -/
theorem c8_main_preserves_created_at (s : List (String × MainChar))
    (uid : String) (old : MainChar) (h : store_get s uid = some old)
    (now name p1 p2 q1 q2 fut flaw : String) :
    (personagem_criar_record s uid now name p1 p2 q1 q2 fut flaw).created_at =
      old.created_at ∧
    store_get
        (store_set s uid (personagem_criar_record s uid now name p1 p2 q1 q2
          fut flaw)) uid =
      some (personagem_criar_record s uid now name p1 p2 q1 q2 fut flaw) := by
  constructor
  · unfold personagem_criar_record
    dsimp only
    rw [h]
  · exact store_get_set_self ..

/-- A one-record `main.py` store for the C8 witness. -/
def exStoreMain : List (String × MainChar) := store_set [] "1" exMain0

/-- Witness for C8: a prior record with `created_at = "T0"` exists;
re-creating at time `"T5"` keeps `"T0"`. -/
theorem c8_main_preserves_created_at_witness :
    store_get exStoreMain "1" = some exMain0 ∧
    ((personagem_criar_record exStoreMain "1" "T5" "N2" "a" "b" "c" "d" "e"
        "f").created_at = exMain0.created_at ∧
      store_get
          (store_set exStoreMain "1" (personagem_criar_record exStoreMain "1"
            "T5" "N2" "a" "b" "c" "d" "e" "f")) "1" =
        some (personagem_criar_record exStoreMain "1" "T5" "N2" "a" "b" "c"
          "d" "e" "f")) :=
  ⟨by decide,
    c8_main_preserves_created_at exStoreMain "1" exMain0 (by decide) "T5"
      "N2" "a" "b" "c" "d" "e" "f"⟩

/-- The record a completed `rpg_core.py` wizard run started at `"T2"` and
finished at `"T3"` produces for user 1 choosing the `conjurador`
archetype. -/
def exWizChar : Character :=
  { schema_version := 2, owner_id := 1, name := "N", race := "Humano",
    cls := "Guerreiro", archetype := "conjurador", pv := ⟨4, 4⟩,
    pm := ⟨5, 5⟩, destiny := ⟨2, 2⟩, damage_base := ⟨1, 1⟩,
    facts := ⟨["a", "b", "c"], ["d", "e", "f"], ["g"]⟩, difficulty := "h",
    ruptured_facts := [], xp := 0, created_at := "T2", updated_at := "T3" }

/-- A prior v2 record stored for user 1 with `created_at = "T0"`. -/
def exStoreChar : List (String × Character) :=
  store_set [] "1" { exCharBase with created_at := "T0" }

/-- C8 (counterexample): the `bot.py`/`rpg_core.py` creation path —
`run_character_wizard` builds a fresh schema whose `created_at` is the
wizard's own start time and `save_character` stores it verbatim — so for
an owner whose prior record has `created_at = "T0"`, the persisted record
carries `"T2"`, not `"T0"`: the original creation timestamp is lost. -/
theorem c8_wizard_overwrites_created_at :
    (store_get exStoreChar "1").map Character.created_at = some "T0" ∧
    run_character_wizard_complete 1 "T2" "T3" "N" "Humano" "Guerreiro"
      "conjurador" "a" "b" "c" "d" "e" "f" "g" "h" = some exWizChar ∧
    (store_get (criar_personagem_store exStoreChar 1 exWizChar) "1").map
      Character.created_at = some "T2" ∧
    "T2" ≠ "T0" := by
  exact ⟨by decide, by decide, by decide, by decide⟩

/-! ## C9 — the 25-option ceiling -/

theorem scanOpts_length_of_clean (rupt : List String) (k : String)
    (arr : List String) (s : Nat) (h : ∀ x ∈ arr, x ≠ "" ∧ x ∉ rupt) :
    (scanOpts true rupt k arr s).length = arr.length := by
  induction arr generalizing s with
  | nil => rfl
  | cons a rest ih =>
    obtain ⟨ha, har⟩ := h a (List.mem_cons_self a rest)
    have hcon : rupt.contains a = false := by
      rw [contains_eq_decide_mem]
      exact decide_eq_false har
    simp [scanOpts, ha, hcon, har,
      ih (s + 1) fun x hx => h x (List.mem_cons_of_mem _ hx)]

/-- A character with 26 facts in the past bucket. -/
def facts26 : Facts := ⟨List.replicate 26 "F", [], []⟩

/-- C9 (counterexample): the option-list *builders* do not cap at 25 —
with 26 stored facts both the `rpg_core.py` all-facts builder and the
`main.py` not-ruptured builder return 26 entries.  (The cap lives in the
select constructions downstream, see the amended theorem.) -/
theorem c9_builder_exceeds_25 :
    (_options_all_facts facts26).length = 26 ∧
    (list_fact_options_not_ruptured facts26 []).length = 26 ∧
    25 < 26 := by
  refine ⟨?_, ?_, by omega⟩
  · unfold _options_all_facts
    rw [List.length_map, all_facts_with_index_length]
    simp [facts26]
  · unfold list_fact_options_not_ruptured
    have hclean : ∀ x ∈ (List.replicate 26 "F"), x ≠ "" ∧ x ∉ ([] : List String) := by
      intro x hx
      rw [List.eq_of_mem_replicate hx]
      exact ⟨by decide, by simp⟩
    simp [facts26, scanOpts, scanOpts_length_of_clean [] "Passado" _ 0 hclean]

/-- C9 (amended): every select construction the builders feed —
`dm_select_one`'s `option_tuples[:25]` loop in `rpg_core.py`, and the
`options_pairs[:25]` slice in `main.py`'s `RupturaSelect` /
`EditarFatoSelect` — truncates to at most 25 rows, for both the all-facts
and the excluding-ruptured builders on any character. -/
theorem c9_select_caps_at_25 (f : Facts) (rupt : List String) :
    (dm_select_one_options (_options_all_facts f)).length ≤ 25 ∧
    (dm_select_one_options (_options_non_ruptured_facts f rupt)).length ≤ 25 ∧
    (main_select_options (list_all_fact_options f)).length ≤ 25 ∧
    (main_select_options (list_fact_options_not_ruptured f rupt)).length ≤ 25 := by
  exact ⟨List.length_take_le .., List.length_take_le ..,
    List.length_take_le .., List.length_take_le ..⟩

/-! ## C10 — option tokens are valid global indices -/

theorem scanOpts_spec (skipR : Bool) (rupt : List String) (kind : String) :
    ∀ (arr : List String) (start : Nat) (p : String × String),
      p ∈ scanOpts skipR rupt kind arr start →
      ∃ (j : Nat) (fact : String), j < arr.length ∧ arr[j]? = some fact ∧
        fact ≠ "" ∧
        p = (kind ++ ": " ++ shorten fact, toString (start + j)) := by
  intro arr
  induction arr with
  | nil =>
    intro s p hp
    exact absurd hp (by simp [scanOpts])
  | cons a rest ih =>
    intro s p hp
    by_cases ha : a = ""
    · have hp' : p ∈ scanOpts skipR rupt kind rest (s + 1) := by
        simpa [scanOpts, ha] using hp
      obtain ⟨j, fact, hj, hget, hne, hpe⟩ := ih (s + 1) p hp'
      refine ⟨j + 1, fact, by simp; omega, by simpa using hget, hne, ?_⟩
      rw [hpe]
      have hidx : s + 1 + j = s + (j + 1) := by omega
      rw [hidx]
    · by_cases hr : (skipR && rupt.contains a) = true
      · have hand : skipR = true ∧ a ∈ rupt := by simpa using hr
        have hp' : p ∈ scanOpts skipR rupt kind rest (s + 1) := by
          simpa [scanOpts, ha, hand.1, hand.2] using hp
        obtain ⟨j, fact, hj, hget, hne, hpe⟩ := ih (s + 1) p hp'
        refine ⟨j + 1, fact, by simp; omega, by simpa using hget, hne, ?_⟩
        rw [hpe]
        have hidx : s + 1 + j = s + (j + 1) := by omega
        rw [hidx]
      · have hand : ¬(skipR = true ∧ a ∈ rupt) := by simpa using hr
        have hp' : p = (kind ++ ": " ++ shorten a, toString s) ∨
            p ∈ scanOpts skipR rupt kind rest (s + 1) := by
          simpa [scanOpts, ha, hand] using hp
        rcases hp' with hp' | hp'
        · exact ⟨0, a, by simp, by simp, ha, by simpa using hp'⟩
        · obtain ⟨j, fact, hj, hget, hne, hpe⟩ := ih (s + 1) p hp'
          refine ⟨j + 1, fact, by simp; omega, by simpa using hget, hne, ?_⟩
          rw [hpe]
          have hidx : s + 1 + j = s + (j + 1) := by omega
          rw [hidx]

theorem optsBuilder_spec (skipR : Bool) (rupt : List String) (f : Facts)
    (p : String × String)
    (hp : p ∈ scanOpts skipR rupt "Passado" f.past 0 ++
      scanOpts skipR rupt "Presente" f.present f.past.length ++
      scanOpts skipR rupt "Futuro" f.future
        (f.past.length + f.present.length)) :
    ∃ (j : Nat) (fact : String), (flatten_facts f)[j]? = some fact ∧
      fact ≠ "" ∧ p.2 = toString j ∧
      ∃ k, p.1 = k ++ ": " ++ shorten fact := by
  rcases List.mem_append.mp hp with hp' | hfut
  · rcases List.mem_append.mp hp' with hpast | hpres
    · obtain ⟨j, fact, hj, hget, hne, hpe⟩ :=
        scanOpts_spec skipR rupt "Passado" f.past 0 p hpast
      refine ⟨j, fact, ?_, hne, ?_, "Passado", ?_⟩
      · rw [flatten_getElem?_past hj, hget]
      · rw [hpe]
        have : 0 + j = j := by omega
        rw [this]
      · rw [hpe]
    · obtain ⟨j, fact, hj, hget, hne, hpe⟩ :=
        scanOpts_spec skipR rupt "Presente" f.present f.past.length p hpres
      refine ⟨f.past.length + j, fact, ?_, hne, ?_, "Presente", ?_⟩
      · rw [flatten_getElem?_present hj, hget]
      · rw [hpe]
      · rw [hpe]
  · obtain ⟨j, fact, hj, hget, hne, hpe⟩ :=
      scanOpts_spec skipR rupt "Futuro" f.future
        (f.past.length + f.present.length) p hfut
    refine ⟨f.past.length + f.present.length + j, fact, ?_, hne, ?_,
      "Futuro", ?_⟩
    · rw [flatten_getElem?_future, hget]
    · rw [hpe]
    · rw [hpe]

/-- C10: in both `main.py` option builders a blank fact is omitted from
the options while the running counter still advances past it, so every
listed option's token is the decimal rendering of a valid global index:
the flattened `past+present+future` sequence holds a non-empty fact at
that index and the option's label is built from that very fact. -/
theorem c10_tokens_are_global_indices (f : Facts) (rupt : List String)
    (p : String × String)
    (h : p ∈ list_all_fact_options f ∨
      p ∈ list_fact_options_not_ruptured f rupt) :
    ∃ (j : Nat) (fact : String), (flatten_facts f)[j]? = some fact ∧
      fact ≠ "" ∧ p.2 = toString j ∧
      ∃ k, p.1 = k ++ ": " ++ shorten fact := by
  rcases h with h | h
  · exact optsBuilder_spec false [] f p h
  · exact optsBuilder_spec true rupt f p h

/-- Witness for C10: with `past = ["", "A"]` the blank fact is skipped but
the single listed option carries token `"1"`, the global index of `"A"`. -/
theorem c10_tokens_are_global_indices_witness :
    (("Passado: A", "1") ∈ list_all_fact_options ⟨["", "A"], [], []⟩ ∨
      ("Passado: A", "1") ∈
        list_fact_options_not_ruptured ⟨["", "A"], [], []⟩ []) ∧
    (∃ (j : Nat) (fact : String),
      (flatten_facts ⟨["", "A"], [], []⟩)[j]? = some fact ∧ fact ≠ "" ∧
      (("Passado: A", "1") : String × String).2 = toString j ∧
      ∃ k, (("Passado: A", "1") : String × String).1 =
        k ++ ": " ++ shorten fact) :=
  ⟨Or.inl (by decide),
    c10_tokens_are_global_indices ⟨["", "A"], [], []⟩ [] ("Passado: A", "1")
      (Or.inl (by decide))⟩


end Fractal
